import Mathlib

/-!
Verification of the meeting-transcriber core: a shallow embedding of the
committed-text reconciliation engine, the bounded audio-chunk queue, the
audio-capture framing, and the websocket session coordinator, translated
from src/elevenlabs_realtime.py and src/app.py.

Text is modelled as List Char. The monotonic clock (time.monotonic() in
the source, a float number of seconds) is modelled as ℤ: the code only
ever compares an elapsed time against the constant 8.0, so only the
ordering of time values matters here.
-/

/-- Python str.lstrip(): drop leading whitespace. -/
def lstrip (l : List Char) : List Char := l.dropWhile (·.isWhitespace)

/-- Python str.rstrip(): drop trailing whitespace. -/
def rstrip (l : List Char) : List Char :=
  (l.reverse.dropWhile (·.isWhitespace)).reverse

/-- Python str.strip(): drop whitespace from both ends. -/
def strip (l : List Char) : List Char := lstrip (rstrip l)

/-- The overlap search loop of _dedupe_committed_text
(src/elevenlabs_realtime.py lines 152-156): for size in
range(max_overlap, 19, -1), if previous[-size:] == current[:size] stop
with that size; 0 when no size in [20, max_overlap] matches. Structural
recursion on the size counter mirrors the downward loop. -/
def findOverlap (previous current : List Char) : Nat → Nat
  | 0 => 0
  | size + 1 =>
    if size + 1 < 20 then 0
    else if previous.drop (previous.length - (size + 1)) = current.take (size + 1) then
      size + 1
    else findOverlap previous current size

/-- The reconciliation state of ElevenLabsRealtimeTranscriber:
last_committed_text and last_committed_time. -/
structure DedupState where
  last_committed_text : List Char
  last_committed_time : ℤ
  deriving DecidableEq, Repr

/-- Shallow embedding of ElevenLabsRealtimeTranscriber._dedupe_committed_text
(src/elevenlabs_realtime.py lines 120-162). Returns the emitted delta and
the updated state; `now` is the value of time.monotonic(). -/
def dedupe_committed_text (s : DedupState) (text : List Char) (now : ℤ) :
    List Char × DedupState :=
  let current := strip text
  if current = [] then ([], s)
  else
    let previous := s.last_committed_text
    if previous = [] then (current, ⟨current, now⟩)
    else if now - s.last_committed_time > 8 then (current, ⟨current, now⟩)
    else if current = previous then ([], s)
    else if previous <+: current then
      (lstrip (current.drop previous.length), ⟨current, now⟩)
    else if current <+: previous then ([], s)
    else
      let max_overlap := min (min previous.length current.length) 220
      let overlap := findOverlap previous current max_overlap
      if overlap > 0 then (lstrip (current.drop overlap), ⟨current, now⟩)
      else (current, ⟨current, now⟩)

/-- The transcript-relevant state of ElevenLabsRealtimeTranscriber: the
reconciliation state, the segment counter, and the per-segment texts
written to segments/seg_*.txt and transcript_plain.txt. -/
structure TranscriberState where
  dedupState : DedupState
  segment_index : Nat
  segment_texts : List (List Char)
  deriving DecidableEq, Repr

/-- Shallow embedding of ElevenLabsRealtimeTranscriber._handle_committed_text
(src/elevenlabs_realtime.py lines 216-236): run the deduplication, and if
the delta is non-empty write it out as the next numbered segment. -/
def handle_committed_text (st : TranscriberState) (text : List Char) (now : ℤ) :
    TranscriberState :=
  let r := dedupe_committed_text st.dedupState text now
  if r.1 = [] then { st with dedupState := r.2 }
  else
    { dedupState := r.2
      segment_index := st.segment_index + 1
      segment_texts := st.segment_texts ++ [r.1] }

/-- Python queue.Queue.put_nowait on a queue of capacity maxsize, holding
its elements oldest first: none models the queue.Full exception. As in
Python, maxsize = 0 means unbounded. -/
def put_nowait (maxsize : Nat) (q : List α) (x : α) : Option (List α) :=
  if maxsize = 0 ∨ q.length < maxsize then some (q ++ [x]) else none

/-- Python queue.Queue.get_nowait: none models the queue.Empty exception. -/
def get_nowait (q : List α) : Option (α × List α) :=
  match q with
  | [] => none
  | h :: t => some (h, t)

/-- The enqueue portion of ElevenLabsRealtimeTranscriber._audio_callback
(src/elevenlabs_realtime.py lines 204-214): try put_nowait; on Full, drop
one oldest entry (ignoring Empty) and retry; on a second Full, drop the
chunk. Every exception is handled internally, so the embedding is a total
function on the queue. -/
def audio_callback_enqueue (maxsize : Nat) (q : List α) (x : α) : List α :=
  match put_nowait maxsize q x with
  | some q' => q'
  | none =>
    let q1 := match get_nowait q with
      | some r => r.2
      | none => q
    match put_nowait maxsize q1 x with
    | some q2 => q2
    | none => q1

/-- The framing portion of ElevenLabsRealtimeTranscriber._audio_callback
(src/elevenlabs_realtime.py lines 191-198): the mono int16 samples of the
incoming frame become a chunk of exactly chunk_samples samples, zero-padded
on the right when the frame is short and truncated to the first
chunk_samples samples when it is long. The resulting chunk is both written
to the raw-audio WAV sink and offered to the audio queue. -/
def audio_callback_chunk (chunk_samples : Nat) (frame : List Int) : List Int :=
  if frame.length ≠ chunk_samples then
    let keep := min frame.length chunk_samples
    frame.take keep ++ List.replicate (chunk_samples - keep) 0
  else frame

/-- Messages the websocket coordinator in src/app.py sends to the browser
producer. The payload of interimMsg models the "partial" message type. -/
inductive BrowserMsg where
  | session_started (meeting_id : Nat)
  | interimMsg (text : List Char)
  | committedMsg (text : List Char)
  | errorMsg (message : List Char)
  deriving DecidableEq, Repr

/-- Events pushed onto the internal asyncio queue by the ElevenLabs
callbacks in src/app.py (lines 188-198). interimEv models the partial
transcript event. -/
inductive ELEvent where
  | interimEv (text : List Char)
  | committedEv (text : List Char)
  | errorEv (message : List Char)
  | closeEv
  deriving DecidableEq, Repr

/-- One committed segment collected by ws_transcribe (src/app.py line 252):
its text and a wall-clock timestamp. -/
structure Segment where
  text : List Char
  timestamp : ℤ
  deriving DecidableEq, Repr

/-- The state threaded through the elevenlabs_to_browser relay loop of
src/app.py (lines 232-265): the collected segments, the messages sent to
the browser so far, and the el_closed flag. -/
structure RelayState where
  segments : List Segment
  sent : List BrowserMsg
  el_closed : Bool
  deriving DecidableEq, Repr

/-- Shallow embedding of the elevenlabs_to_browser loop of src/app.py
(lines 232-265), processing the queued events in arrival order; `clock`
models dt.datetime.now() and advances by one per event. A close event
sets el_closed and stops the loop. -/
def relayRun (clock : ℤ) (st : RelayState) : List ELEvent → RelayState
  | [] => st
  | e :: rest =>
    match e with
    | .interimEv t =>
      let text := strip t
      if text = [] then relayRun (clock + 1) st rest
      else relayRun (clock + 1) { st with sent := st.sent ++ [.interimMsg text] } rest
    | .committedEv t =>
      let text := strip t
      if text = [] then relayRun (clock + 1) st rest
      else
        relayRun (clock + 1)
          { st with
            segments := st.segments ++ [⟨text, clock⟩]
            sent := st.sent ++ [.committedMsg text] } rest
    | .errorEv m =>
      relayRun (clock + 1) { st with sent := st.sent ++ [.errorMsg m] } rest
    | .closeEv => { st with el_closed := true }

/-- The first websocket message received by ws_transcribe:
either a disconnect / undecodable payload, or a parsed JSON object with
its "type" and "title" fields. -/
inductive FirstRecv where
  | disconnect
  | message (msgType : List Char) (title : List Char)
  deriving DecidableEq, Repr

/-- The metadata.json record of one meeting directory as ws_transcribe
leaves it on disk (src/app.py lines 156-162 and 313-319). segment_count
is only present after finalization. -/
structure MeetingRecord where
  title : List Char
  status : List Char
  segment_count : Option Nat
  deriving DecidableEq, Repr

/-- The observable outcome of one execution of the ws_transcribe handler:
everything sent to the browser, the meeting directory's metadata record
(none when no directory was created), and the transcript.json contents. -/
structure WsOutcome where
  sent : List BrowserMsg
  meeting : Option MeetingRecord
  transcript : List Segment
  deriving DecidableEq, Repr

/-- Shallow embedding of the control flow of ws_transcribe
(src/app.py lines 132-325). `connectOk` is whether
client.speech_to_text.realtime.connect succeeds, and `events` are the
upstream events the relay loop processes when it does. A malformed or
non-start first message creates no meeting state; a well-formed start
writes metadata with status "recording" and sends session_started before
the connect attempt; on connect failure the handler sends an error and
returns; otherwise the relay runs and the finally block rewrites the
metadata with status "completed" and the segment count. -/
def ws_transcribe (first : FirstRecv) (connectOk : Bool) (events : List ELEvent) :
    WsOutcome :=
  match first with
  | .disconnect => ⟨[], none, []⟩
  | .message msgType title =>
    if msgType ≠ "start".toList then
      ⟨[.errorMsg "Expected start message".toList], none, []⟩
    else
      let sent0 := [BrowserMsg.session_started 0]
      if connectOk = false then
        ⟨sent0 ++ [.errorMsg "ElevenLabs connection failed".toList],
          some ⟨title, "recording".toList, none⟩, []⟩
      else
        let rs := relayRun 0 ⟨[], [], false⟩ events
        ⟨sent0 ++ rs.sent,
          some ⟨title, "completed".toList, some rs.segments.length⟩,
          rs.segments⟩

/-! ## Helper lemmas about whitespace trimming -/

theorem dropWhile_idem {α : Type} (p : α → Bool) (l : List α) :
    (l.dropWhile p).dropWhile p = l.dropWhile p := by
  induction l with
  | nil => simp
  | cons a t ih =>
    by_cases h : p a
    · simp [List.dropWhile_cons, h, ih]
    · simp [List.dropWhile_cons, h]

theorem lstrip_lstrip (l : List Char) : lstrip (lstrip l) = lstrip l :=
  dropWhile_idem _ l

theorem lstrip_strip (l : List Char) : lstrip (strip l) = strip l :=
  lstrip_lstrip (rstrip l)

theorem lstrip_nil : lstrip [] = [] := rfl

/-! ## Characterization of the overlap search loop -/

/-- findOverlap either reports that no size in [20, n] matches, or returns
the largest size in [20, n] whose suffix of previous equals the prefix of
current of that size. -/
theorem findOverlap_spec (p c : List Char) :
    ∀ n : Nat,
      (findOverlap p c n = 0 ∧
        ∀ j, 20 ≤ j → j ≤ n → p.drop (p.length - j) ≠ c.take j) ∨
      (20 ≤ findOverlap p c n ∧ findOverlap p c n ≤ n ∧
        p.drop (p.length - findOverlap p c n) = c.take (findOverlap p c n) ∧
        ∀ j, findOverlap p c n < j → j ≤ n → p.drop (p.length - j) ≠ c.take j) := by
  intro n
  induction n with
  | zero => exact Or.inl ⟨rfl, fun j hj hj0 => by omega⟩
  | succ n ih =>
    by_cases hsmall : n + 1 < 20
    · left
      refine ⟨by simp [findOverlap, hsmall], fun j hj hjn => by omega⟩
    · by_cases hmatch : p.drop (p.length - (n + 1)) = c.take (n + 1)
      · right
        have hval : findOverlap p c (n + 1) = n + 1 := by
          simp [findOverlap, hsmall, hmatch]
        rw [hval]
        exact ⟨by omega, Nat.le_refl _, hmatch, fun j hj hjn => by omega⟩
      · have hval : findOverlap p c (n + 1) = findOverlap p c n := by
          simp [findOverlap, hsmall, hmatch]
        rw [hval]
        rcases ih with ⟨h0, hall⟩ | ⟨h20, hle, hm, hmax⟩
        · left
          refine ⟨h0, fun j hj hjn => ?_⟩
          rcases Nat.lt_or_ge j (n + 1) with hlt | hge
          · exact hall j hj (by omega)
          · have : j = n + 1 := by omega
            subst this
            exact hmatch
        · right
          refine ⟨h20, by omega, hm, fun j hj hjn => ?_⟩
          rcases Nat.lt_or_ge j (n + 1) with hlt | hge
          · exact hmax j hj (by omega)
          · have : j = n + 1 := by omega
            subst this
            exact hmatch

/-! ## Shared facts about the reconciliation branches -/

/-- An exact duplicate (stripped input equal to the remembered text) inside
the gap window makes the engine emit nothing and leave the state untouched. -/
theorem dedupe_duplicate_eq (s : DedupState) (text : List Char) (now : ℤ)
    (hP : s.last_committed_text ≠ [])
    (heq : strip text = s.last_committed_text)
    (hgap : now - s.last_committed_time ≤ 8) :
    dedupe_committed_text s text now = ([], s) := by
  simp only [dedupe_committed_text, heq]
  rw [if_neg hP, if_neg hP,
    if_neg (show ¬ now - s.last_committed_time > 8 by omega), if_pos trivial]

/-! ## Claim C6: exact-duplicate law -/

/-- Claim C6: for every non-empty previous committed text and a current
text equal to it (after stripping), reconciled within the 8-second gap
window, the engine emits the empty string and leaves the reconciliation
state entirely unchanged: neither last_committed_text nor
last_committed_time is refreshed on an exact duplicate. -/
theorem dedupe_exact_duplicate_state_unchanged (s : DedupState) (text : List Char)
    (now : ℤ)
    (hP : s.last_committed_text ≠ [])
    (heq : strip text = s.last_committed_text)
    (hgap : now - s.last_committed_time ≤ 8) :
    dedupe_committed_text s text now = ([], s) :=
  dedupe_duplicate_eq s text now hP heq hgap

/-- Witness for claim C6 at a concrete duplicate commit three seconds after
the previous one: the emit is empty and the state, including the old
timestamp 2, is returned untouched. -/
theorem dedupe_exact_duplicate_state_unchanged_witness :
    ("good morning everyone".toList ≠ ([] : List Char)) ∧
    strip "good morning everyone".toList = "good morning everyone".toList ∧
    ((5 : ℤ) - 2 ≤ 8) ∧
    dedupe_committed_text ⟨"good morning everyone".toList, 2⟩
        "good morning everyone".toList 5
      = ([], ⟨"good morning everyone".toList, 2⟩) :=
  ⟨by decide, by decide, by decide,
    dedupe_exact_duplicate_state_unchanged ⟨"good morning everyone".toList, 2⟩
      "good morning everyone".toList 5 (by decide) (by decide) (by decide)⟩

/-! ## Claim C7: gap-reset law -/

/-- Claim C7: for every non-empty previous committed text and non-empty
current (trimmed) text, if the elapsed time since the last recorded commit
strictly exceeds 8 seconds, reconciliation emits the current text verbatim
regardless of any textual overlap with the previous text, and the state
becomes (current text, now). -/
theorem dedupe_gap_reset_emits_verbatim (s : DedupState) (text : List Char) (now : ℤ)
    (hP : s.last_committed_text ≠ [])
    (ht : strip text = text)
    (htne : text ≠ [])
    (hgap : now - s.last_committed_time > 8) :
    dedupe_committed_text s text now = (text, ⟨text, now⟩) := by
  simp only [dedupe_committed_text, ht]
  rw [if_neg htne, if_neg hP, if_pos hgap]

/-- Witness for claim C7: the current text is identical to the previous one
(maximal overlap), yet with a 9-second gap it is emitted verbatim. -/
theorem dedupe_gap_reset_emits_verbatim_witness :
    ("we will meet again tomorrow".toList ≠ ([] : List Char)) ∧
    strip "we will meet again tomorrow".toList = "we will meet again tomorrow".toList ∧
    ((9 : ℤ) - 0 > 8) ∧
    dedupe_committed_text ⟨"we will meet again tomorrow".toList, 0⟩
        "we will meet again tomorrow".toList 9
      = ("we will meet again tomorrow".toList, ⟨"we will meet again tomorrow".toList, 9⟩) :=
  ⟨by decide, by decide, by decide,
    dedupe_gap_reset_emits_verbatim ⟨"we will meet again tomorrow".toList, 0⟩
      "we will meet again tomorrow".toList 9 (by decide) (by decide) (by decide)
      (by decide)⟩

/-! ## Claim C5: idempotent-extension law -/

/-- Claim C5: for every non-empty previous committed text P and every
non-empty suffix that neither starts with whitespace (lstrip leaves it
unchanged) nor breaks the trimmedness of P ++ suffix, reconciling
C = P ++ suffix within the gap window emits exactly the suffix and updates
the state to (C, now). -/
theorem dedupe_extension_emits_suffix (s : DedupState) (suffix : List Char) (now : ℤ)
    (hP : s.last_committed_text ≠ [])
    (hsuf : suffix ≠ [])
    (hws : lstrip suffix = suffix)
    (hgap : now - s.last_committed_time ≤ 8)
    (hstrip : strip (s.last_committed_text ++ suffix) = s.last_committed_text ++ suffix) :
    dedupe_committed_text s (s.last_committed_text ++ suffix) now
      = (suffix, ⟨s.last_committed_text ++ suffix, now⟩) := by
  have hPC : s.last_committed_text ++ suffix ≠ [] := by
    intro h
    exact hP (List.append_eq_nil.mp h).1
  have hne : s.last_committed_text ++ suffix ≠ s.last_committed_text := by
    intro h
    have hlen := congrArg List.length h
    rw [List.length_append] at hlen
    have hz : suffix.length = 0 := by omega
    exact hsuf (List.length_eq_zero.mp hz)
  simp only [dedupe_committed_text, hstrip]
  rw [if_neg hPC, if_neg hP,
    if_neg (show ¬ now - s.last_committed_time > 8 by omega),
    if_neg hne, if_pos (List.prefix_append s.last_committed_text suffix),
    List.drop_left, hws]

/-- Witness for claim C5 at the concrete instance P = "hello" and
suffix = "world": reconciling the extension "helloworld" one second after
the previous commit emits exactly "world" and updates the state. -/
theorem dedupe_extension_emits_suffix_witness :
    ("hello".toList ≠ ([] : List Char)) ∧
    ("world".toList ≠ ([] : List Char)) ∧
    lstrip "world".toList = "world".toList ∧
    ((1 : ℤ) - 0 ≤ 8) ∧
    strip ("hello".toList ++ "world".toList) = "hello".toList ++ "world".toList ∧
    dedupe_committed_text ⟨"hello".toList, 0⟩ ("hello".toList ++ "world".toList) 1
      = ("world".toList, ⟨"hello".toList ++ "world".toList, 1⟩) :=
  ⟨by decide, by decide, by decide, by decide, by decide,
    dedupe_extension_emits_suffix ⟨"hello".toList, 0⟩ "world".toList 1
      (by decide) (by decide) (by decide) (by decide) (by decide)⟩

/-! ## Claim C2: no duplicated committed content -/

/-- Claim C2 (amended): in the realtime transcriber
(src/elevenlabs_realtime.py), a committed event whose stripped text
exactly equals the previously committed text and that arrives within the
8-second gap window produces no new segment and leaves the transcriber
state unchanged. The websocket relay in src/app.py performs no such
deduplication (see the counterexample). -/
theorem transcriber_duplicate_committed_no_new_segment
    (st : TranscriberState) (text : List Char) (now : ℤ)
    (hP : st.dedupState.last_committed_text ≠ [])
    (heq : strip text = st.dedupState.last_committed_text)
    (hgap : now - st.dedupState.last_committed_time ≤ 8) :
    handle_committed_text st text now = st := by
  unfold handle_committed_text
  rw [dedupe_duplicate_eq st.dedupState text now hP heq hgap]
  simp

/-- Witness for claim C2's amended statement: a duplicate committed event
leaves the segment list and counter of the transcriber untouched. -/
theorem transcriber_duplicate_committed_no_new_segment_witness :
    (("status update complete".toList : List Char) ≠ []) ∧
    strip "status update complete".toList = "status update complete".toList ∧
    ((4 : ℤ) - 1 ≤ 8) ∧
    handle_committed_text
        ⟨⟨"status update complete".toList, 1⟩, 1, ["status update complete".toList]⟩
        "status update complete".toList 4
      = ⟨⟨"status update complete".toList, 1⟩, 1, ["status update complete".toList]⟩ :=
  ⟨by decide, by decide, by decide,
    transcriber_duplicate_committed_no_new_segment
      ⟨⟨"status update complete".toList, 1⟩, 1, ["status update complete".toList]⟩
      "status update complete".toList 4 (by decide) (by decide) (by decide)⟩

/-- Claim C2 counterexample: the websocket relay of src/app.py appends a
new Segment and sends a new committed message even when a committed
event's stripped text exactly equals the previously committed one, so the
claim is false for the session coordinator's relay path. -/
theorem relay_duplicate_committed_cex :
    (relayRun 0 ⟨[], [], false⟩
        [.committedEv "hi there team".toList, .committedEv "hi there team".toList]).segments
      = [⟨"hi there team".toList, 0⟩, ⟨"hi there team".toList, 1⟩] ∧
    (relayRun 0 ⟨[], [], false⟩
        [.committedEv "hi there team".toList, .committedEv "hi there team".toList]).sent
      = [.committedMsg "hi there team".toList, .committedMsg "hi there team".toList] :=
  ⟨by decide, by decide⟩

/-! ## Claim C3: fallback overlap reconciliation -/

/-- Claim C3: in the reconciliation fallback case (current text nonempty,
within the gap window, different from the previous text, neither a prefix
of the other), if k is the size of the longest string that is both a
suffix of the previous text and a prefix of the current text among sizes
20..min(|previous|, |current|, 220), the engine emits the current text
with the first k characters removed and left-trimmed of whitespace, and
sets the state to (current text, now). The witness instantiates the
spec's large-overlap example, emitting "and notify the team". -/
theorem dedupe_fallback_overlap_emits_remainder (s : DedupState) (text : List Char)
    (now : ℤ) (k : Nat)
    (hC : strip text ≠ [])
    (hgap : now - s.last_committed_time ≤ 8)
    (hne : strip text ≠ s.last_committed_text)
    (h1 : ¬ s.last_committed_text <+: strip text)
    (h2 : ¬ strip text <+: s.last_committed_text)
    (hk20 : 20 ≤ k)
    (hkcap : k ≤ min (min s.last_committed_text.length (strip text).length) 220)
    (hkmatch : s.last_committed_text.drop (s.last_committed_text.length - k)
      = (strip text).take k)
    (hkmax : ∀ j, j ≤ min (min s.last_committed_text.length (strip text).length) 220 →
      k < j → s.last_committed_text.drop (s.last_committed_text.length - j)
        ≠ (strip text).take j) :
    dedupe_committed_text s text now
      = (lstrip ((strip text).drop k), ⟨strip text, now⟩) := by
  have hP : s.last_committed_text ≠ [] := by
    intro h
    apply h1
    rw [h]
    apply List.nil_prefix
  have hov : findOverlap s.last_committed_text (strip text)
      (min (min s.last_committed_text.length (strip text).length) 220) = k := by
    rcases findOverlap_spec s.last_committed_text (strip text)
        (min (min s.last_committed_text.length (strip text).length) 220) with
      ⟨h0, hall⟩ | ⟨h20, hle, hm, hmax⟩
    · exact absurd hkmatch (hall k hk20 hkcap)
    · rcases Nat.lt_trichotomy (findOverlap s.last_committed_text (strip text)
          (min (min s.last_committed_text.length (strip text).length) 220)) k with
        hlt | heq | hgt
      · exact absurd hkmatch (hmax k hlt hkcap)
      · exact heq
      · exact absurd hm (hkmax _ hle hgt)
  simp only [dedupe_committed_text]
  rw [if_neg hC, if_neg hP, if_neg (show ¬ now - s.last_committed_time > 8 by omega),
    if_neg hne, if_neg h1, if_neg h2, hov, if_pos (show k > 0 by omega)]

/-- Witness for claim C3: the spec's large-overlap example. The previous
text "I think we should ship the release today" and the current text
"ship the release today and notify the team" overlap in the 22-character
string "ship the release today", the unique and hence largest match in
the search range, and the engine emits "and notify the team". -/
theorem dedupe_fallback_overlap_emits_remainder_witness :
    (strip "ship the release today and notify the team".toList ≠ []) ∧
    ((1 : ℤ) - 0 ≤ 8) ∧
    (strip "ship the release today and notify the team".toList
      ≠ "I think we should ship the release today".toList) ∧
    (¬ "I think we should ship the release today".toList
      <+: strip "ship the release today and notify the team".toList) ∧
    (¬ strip "ship the release today and notify the team".toList
      <+: "I think we should ship the release today".toList) ∧
    (20 ≤ 22) ∧
    (22 ≤ min (min ("I think we should ship the release today".toList).length
        (strip "ship the release today and notify the team".toList).length) 220) ∧
    ("I think we should ship the release today".toList.drop
        ("I think we should ship the release today".toList.length - 22)
      = (strip "ship the release today and notify the team".toList).take 22) ∧
    (∀ j, j ≤ min (min ("I think we should ship the release today".toList).length
        (strip "ship the release today and notify the team".toList).length) 220 →
      22 < j → "I think we should ship the release today".toList.drop
          ("I think we should ship the release today".toList.length - j)
        ≠ (strip "ship the release today and notify the team".toList).take j) ∧
    dedupe_committed_text ⟨"I think we should ship the release today".toList, 0⟩
        "ship the release today and notify the team".toList 1
      = ("and notify the team".toList,
          ⟨"ship the release today and notify the team".toList, 1⟩) :=
  ⟨by decide, by decide, by decide, by decide, by decide, by decide, by decide,
    by decide, by decide,
    (dedupe_fallback_overlap_emits_remainder
        ⟨"I think we should ship the release today".toList, 0⟩
        "ship the release today and notify the team".toList 1 22
        (by decide) (by decide) (by decide) (by decide) (by decide) (by decide)
        (by decide) (by decide) (by decide)).trans (by decide)⟩

/-! ## Claim C4: the 20-character floor of the fallback -/

/-- Claim C4: in the reconciliation fallback case, if no string of length
at least 20 is simultaneously a suffix of the previous text and a prefix
of the current text, the engine emits the current text verbatim (treated
as an unrelated commit) and sets the state to (current text, now). The
witness checks the spec's example with the 5-character overlap "brown". -/
theorem dedupe_fallback_no_overlap_emits_verbatim (s : DedupState) (text : List Char)
    (now : ℤ)
    (hC : strip text ≠ [])
    (hgap : now - s.last_committed_time ≤ 8)
    (hne : strip text ≠ s.last_committed_text)
    (h1 : ¬ s.last_committed_text <+: strip text)
    (h2 : ¬ strip text <+: s.last_committed_text)
    (hno : ∀ w : List Char, 20 ≤ w.length → w <:+ s.last_committed_text →
      ¬ w <+: strip text) :
    dedupe_committed_text s text now = (strip text, ⟨strip text, now⟩) := by
  have hP : s.last_committed_text ≠ [] := by
    intro h
    apply h1
    rw [h]
    apply List.nil_prefix
  have hzero : findOverlap s.last_committed_text (strip text)
      (min (min s.last_committed_text.length (strip text).length) 220) = 0 := by
    rcases findOverlap_spec s.last_committed_text (strip text)
        (min (min s.last_committed_text.length (strip text).length) 220) with
      ⟨h0, _⟩ | ⟨h20, hle, hm, _⟩
    · exact h0
    · exfalso
      have hcapC : min (min s.last_committed_text.length (strip text).length) 220
          ≤ (strip text).length :=
        le_trans (min_le_left _ _) (min_le_right _ _)
      refine hno ((strip text).take (findOverlap s.last_committed_text (strip text)
          (min (min s.last_committed_text.length (strip text).length) 220))) ?_ ?_ ?_
      · rw [List.length_take, Nat.min_eq_left (le_trans hle hcapC)]
        exact h20
      · rw [← hm]
        exact List.drop_suffix _ _
      · exact List.take_prefix _ _
  simp only [dedupe_committed_text]
  rw [if_neg hC, if_neg hP, if_neg (show ¬ now - s.last_committed_time > 8 by omega),
    if_neg hne, if_neg h1, if_neg h2, hzero]
  simp

/-- Witness for claim C4: the spec's overlap-law example. With previous
text "...the quick brown" (18 characters, so no common string of length
20 exists) and current text "brown fox jumps", the engine emits the
current text verbatim, not the shortened remainder. -/
theorem dedupe_fallback_no_overlap_emits_verbatim_witness :
    (strip "brown fox jumps".toList ≠ []) ∧
    ((1 : ℤ) - 0 ≤ 8) ∧
    (strip "brown fox jumps".toList ≠ "...the quick brown".toList) ∧
    (¬ "...the quick brown".toList <+: strip "brown fox jumps".toList) ∧
    (¬ strip "brown fox jumps".toList <+: "...the quick brown".toList) ∧
    dedupe_committed_text ⟨"...the quick brown".toList, 0⟩ "brown fox jumps".toList 1
      = ("brown fox jumps".toList, ⟨"brown fox jumps".toList, 1⟩) :=
  ⟨by decide, by decide, by decide, by decide, by decide,
    (dedupe_fallback_no_overlap_emits_verbatim ⟨"...the quick brown".toList, 0⟩
        "brown fox jumps".toList 1 (by decide) (by decide) (by decide) (by decide)
        (by decide)
        (fun w hw hsuf =>
          absurd (le_trans hw hsuf.length_le) (by decide))).trans (by decide)⟩

/-! ## Claim C9: every emission is a left-trimmed tail of the input -/

/-- Claim C9: for every reconciliation state and every input text, the
value emitted by the committed-text deduplication function is either the
empty string or the left-whitespace-trimmed suffix current[k:].lstrip()
of the stripped input current = input.strip() for some k < |current|, so
every persisted segment text is drawn verbatim from the tail of some
committed event's text. -/
theorem dedupe_emits_lstripped_tail_of_input (s : DedupState) (text : List Char)
    (now : ℤ) :
    (dedupe_committed_text s text now).1 = [] ∨
    ∃ k, k < (strip text).length ∧
      (dedupe_committed_text s text now).1 = lstrip ((strip text).drop k) := by
  by_cases h1 : strip text = []
  · left
    simp [dedupe_committed_text, h1]
  · have hpos : 0 < (strip text).length := List.length_pos.mpr h1
    by_cases h2 : s.last_committed_text = []
    · right
      exact ⟨0, hpos, by simp [dedupe_committed_text, h1, h2, lstrip_strip]⟩
    · by_cases h3 : now - s.last_committed_time > 8
      · right
        exact ⟨0, hpos, by simp [dedupe_committed_text, h1, h2, h3, lstrip_strip]⟩
      · by_cases h4 : strip text = s.last_committed_text
        · left
          simp [dedupe_committed_text, h1, h2, h3, h4]
        · by_cases h5 : s.last_committed_text <+: strip text
          · right
            refine ⟨s.last_committed_text.length, ?_, ?_⟩
            · rcases Nat.lt_or_ge s.last_committed_text.length (strip text).length
                with hlt | hge
              · exact hlt
              · exact absurd (List.IsPrefix.eq_of_length h5
                  (Nat.le_antisymm h5.length_le hge)).symm h4
            · simp [dedupe_committed_text, h1, h2, h3, h4, h5]
          · by_cases h6 : strip text <+: s.last_committed_text
            · left
              simp [dedupe_committed_text, h1, h2, h3, h4, h5, h6]
            · have hd : dedupe_committed_text s text now
                  = (if findOverlap s.last_committed_text (strip text)
                        (min (min s.last_committed_text.length (strip text).length) 220)
                        > 0 then
                      (lstrip ((strip text).drop (findOverlap s.last_committed_text
                        (strip text)
                        (min (min s.last_committed_text.length (strip text).length)
                          220))),
                        ⟨strip text, now⟩)
                    else (strip text, ⟨strip text, now⟩)) := by
                simp only [dedupe_committed_text]
                rw [if_neg h1, if_neg h2, if_neg h3, if_neg h4, if_neg h5, if_neg h6]
              rcases findOverlap_spec s.last_committed_text (strip text)
                  (min (min s.last_committed_text.length (strip text).length) 220) with
                ⟨h0, _⟩ | ⟨h20, hle, _, _⟩
              · right
                refine ⟨0, hpos, ?_⟩
                rw [hd, if_neg (by omega)]
                simp [lstrip_strip]
              · have hovC : findOverlap s.last_committed_text (strip text)
                    (min (min s.last_committed_text.length (strip text).length) 220)
                    ≤ (strip text).length :=
                  le_trans hle (le_trans (min_le_left _ _) (min_le_right _ _))
                have h7 : findOverlap s.last_committed_text (strip text)
                    (min (min s.last_committed_text.length (strip text).length) 220)
                    > 0 := by omega
                rcases Nat.lt_or_ge (findOverlap s.last_committed_text (strip text)
                    (min (min s.last_committed_text.length (strip text).length) 220))
                    (strip text).length with hlt | hge
                · right
                  refine ⟨_, hlt, ?_⟩
                  rw [hd, if_pos h7]
                · left
                  have hdrop : (strip text).drop (findOverlap s.last_committed_text
                      (strip text)
                      (min (min s.last_committed_text.length (strip text).length) 220))
                      = [] := List.drop_eq_nil_of_le hge
                  rw [hd, if_pos h7]
                  rw [hdrop]
                  rfl

/-! ## Claim C8: drop-oldest overflow policy -/

/-- Claim C8: when a chunk is enqueued into a full bounded audio-chunk
queue, the single oldest entry is evicted and the new chunk inserted. The
embedding of the handler is a total function because the source swallows
the queue.Full and queue.Empty exceptions instead of propagating them to
the audio callback's caller. -/
theorem audio_enqueue_full_evicts_oldest {α : Type} (maxsize : Nat) (q : List α)
    (x : α) (hcap : 0 < maxsize) (hfull : q.length = maxsize) :
    audio_callback_enqueue maxsize q x = q.tail ++ [x] := by
  cases q with
  | nil =>
    rw [List.length_nil] at hfull
    omega
  | cons h t =>
    have hlt : t.length < maxsize := by
      rw [List.length_cons] at hfull
      omega
    have hput : put_nowait maxsize (h :: t) x = none := by
      have hnot : ¬ (maxsize = 0 ∨ (h :: t).length < maxsize) := by
        rintro (h0 | hcontra) <;> omega
      unfold put_nowait
      rw [if_neg hnot]
    have hput2 : put_nowait maxsize t x = some (t ++ [x]) := by
      unfold put_nowait
      rw [if_pos (Or.inr hlt)]
    simp [audio_callback_enqueue, hput, hput2, get_nowait]

/-- Witness for claim C8: the spec's queue-overflow scenario at capacity 3.
A full queue holding chunks 0,1,2 receives chunk 3: the oldest entry 0 is
evicted and 3 inserted. Folding the enqueue over chunks 0,1,2,3 starting
from the empty queue likewise ends with contents 1,2,3 and no failure. -/
theorem audio_enqueue_full_evicts_oldest_witness :
    ((0 : Nat) < 3 ∧ ([0, 1, 2] : List Nat).length = 3 ∧
      audio_callback_enqueue 3 ([0, 1, 2] : List Nat) 3 = [1, 2, 3]) ∧
    List.foldl (fun q x => audio_callback_enqueue 3 q x) ([] : List Nat) [0, 1, 2, 3]
      = [1, 2, 3] :=
  ⟨⟨by decide, by decide,
      (audio_enqueue_full_evicts_oldest 3 [0, 1, 2] 3 (by decide) (by decide)).trans
        (by decide)⟩,
    by decide⟩

/-! ## Claim C10: exact chunk framing in the audio callback -/

/-- Claim C10: the chunk written to the raw-audio sink and offered to the
queue by the audio callback always has exactly chunk_samples samples:
frames shorter than the chunk size are zero-padded on the right, and
frames longer than the chunk size are silently truncated to their first
chunk_samples samples, the excess being discarded. -/
theorem audio_chunk_exact_size (chunk_samples : Nat) (frame : List Int) :
    (audio_callback_chunk chunk_samples frame).length = chunk_samples ∧
    audio_callback_chunk chunk_samples frame
      = if chunk_samples ≤ frame.length then frame.take chunk_samples
        else frame ++ List.replicate (chunk_samples - frame.length) 0 := by
  simp only [audio_callback_chunk]
  by_cases hne : frame.length ≠ chunk_samples
  · rw [if_pos hne]
    constructor
    · rw [List.length_append, List.length_take, List.length_replicate]
      omega
    · by_cases hle : chunk_samples ≤ frame.length
      · rw [if_pos hle, Nat.min_eq_right hle]
        simp
      · rw [if_neg hle, Nat.min_eq_left (by omega), List.take_length]
  · rw [if_neg hne]
    push_neg at hne
    refine ⟨hne, ?_⟩
    rw [if_pos (le_of_eq hne.symm), ← hne, List.take_length]

/-! ## Claim C1: upstream connect failure during session start -/

/-- Claim C1 counterexample: with a well-formed start request and a failing
upstream connection, the ws_transcribe handler of src/app.py does report
the error to the producer, but the meeting directory's metadata record is
left behind with status "recording", so the claim that no such record
exists afterwards is false. -/
theorem ws_connect_failure_dangling_recording_cex :
    (ws_transcribe (.message "start".toList "Team sync".toList) false []).meeting
      = some ⟨"Team sync".toList, "recording".toList, none⟩ ∧
    BrowserMsg.errorMsg "ElevenLabs connection failed".toList
      ∈ (ws_transcribe (.message "start".toList "Team sync".toList) false []).sent :=
  ⟨by decide, by decide⟩

/-- Claim C1 (amended): when the upstream connect step raises after a
well-formed start request, the coordinator sends the session_started
acknowledgment followed by an error event to the producer, and the meeting
directory created before the connect attempt keeps its metadata record
with status "recording" and no segment count: a dangling in-progress
session remains. -/
theorem ws_connect_failure_error_and_recording_left (title : List Char)
    (events : List ELEvent) :
    (ws_transcribe (.message "start".toList title) false events).sent
      = [.session_started 0, .errorMsg "ElevenLabs connection failed".toList] ∧
    (ws_transcribe (.message "start".toList title) false events).meeting
      = some ⟨title, "recording".toList, none⟩ :=
  ⟨rfl, rfl⟩
